import Mathlib

/-
Verification of the ledger-cleaning pipeline (`clean_pdf` in pdftoexcel.py).

The pipeline is embedded shallowly:
  * a raw extracted table is a `RawTable`: a column count plus a list of rows,
    each row a list of text cells (pandas DataFrames are rectangular; the
    column count is carried explicitly so that zero-row tables keep a width);
  * each pandas stage of `clean_pdf` becomes a pure function on row lists;
  * numeric cells (`pd.to_numeric(..., errors="coerce")`) become `Option Rat`,
    with `none` playing the role of NaN/null;
  * the in-place continuation-merge loop (code lines 48-55) becomes an
    explicit fuel-indexed loop `mergeLoop` over the row list, mirroring
    `for i in range(1, len(df))` with its `df.iat[i-1, 5]` write and the
    final `df.drop(rows_to_drop)`.
String-level operations (strip, case-insensitive contains, comma removal)
are written over the character list `String.data` so that everything is
executable and decidable.
-/

/-- Characters treated as trimmable whitespace, modelling `str.strip()`. -/
def isWSChar (c : Char) : Bool :=
  c == ' ' || c == '\t' || c == '\n' || c == '\r'

/-- Trim whitespace from both ends of a character list (`str.strip()`). -/
def trimChars (l : List Char) : List Char :=
  ((l.dropWhile isWSChar).reverse.dropWhile isWSChar).reverse

/-- ASCII lowercasing of one character, modelling `case=False` matching. -/
def lowerChar (c : Char) : Char :=
  if 'A' ≤ c && c ≤ 'Z' then Char.ofNat (c.toNat + 32) else c

/-- Does `pat` occur at the head of `l`? -/
def startsWithChars : List Char → List Char → Bool
  | [], _ => true
  | _ :: _, [] => false
  | a :: as, b :: bs => a == b && startsWithChars as bs

/-- Does `pat` occur anywhere inside `l` as a contiguous run? -/
def hasSubChars (pat : List Char) : List Char → Bool
  | [] => startsWithChars pat []
  | c :: cs => startsWithChars pat (c :: cs) || hasSubChars pat cs

/-- Case-insensitive substring test, modelling
`Series.str.contains(pat, case=False)` for a plain-text pattern. -/
def containsCI (s pat : String) : Bool :=
  hasSubChars (pat.data.map lowerChar) (s.data.map lowerChar)

/-- Numeric value of a decimal digit character. -/
def digitVal (c : Char) : Nat := c.toNat - 48

/-- Decimal value of a digit string. -/
def natOfDigits (l : List Char) : Nat :=
  l.foldl (fun n c => 10 * n + digitVal c) 0

/-- Parse an unsigned decimal literal `digits[.digits]` as a rational.
Either side of the point may be empty but not both.  Anything else fails,
mirroring `pd.to_numeric(..., errors="coerce")` on plain decimal text. -/
def parseUnsigned (l : List Char) : Option Rat :=
  let intPart := l.takeWhile Char.isDigit
  let rest := l.dropWhile Char.isDigit
  match rest with
  | [] => if intPart.isEmpty then none else some ((natOfDigits intPart : Nat) : Rat)
  | '.' :: rest2 =>
    let fracPart := rest2.takeWhile Char.isDigit
    let rest3 := rest2.dropWhile Char.isDigit
    if rest3.isEmpty && !(intPart.isEmpty && fracPart.isEmpty) then
      some (((natOfDigits intPart : Nat) : Rat) +
        ((natOfDigits fracPart : Nat) : Rat) / ((10 : Rat) ^ fracPart.length))
    else none
  | _ => none

/-- Parse an optionally signed decimal literal as a rational. -/
def parseDecimal (l : List Char) : Option Rat :=
  match l with
  | '-' :: rest => (parseUnsigned rest).map (fun q => -q)
  | '+' :: rest => parseUnsigned rest
  | _ => parseUnsigned l

/-- Remove every comma, modelling `str.replace(",", "")`. -/
def stripSep (l : List Char) : List Char :=
  l.filter (fun c => !(c == ','))

/-- The numeric coercion of code line 60:
`pd.to_numeric(df[col].astype(str).str.replace(",", "").str.strip(), errors="coerce")`.
Comma removal, then whitespace trim, then decimal parse; failure is `none`. -/
def coerceNumeric (s : String) : Option Rat :=
  parseDecimal (trimChars (stripSep s.data))

/-- A calendar date (no time-of-day component). -/
structure CalDate where
  day : Nat
  month : Nat
  year : Nat
  deriving DecidableEq

/-- Split a character list on a separator character. -/
def splitOnCh (sep : Char) (l : List Char) : List (List Char) :=
  l.foldr (fun c acc =>
    match acc with
    | [] => [[c]]
    | cur :: rest => if c == sep then [] :: cur :: rest else (c :: cur) :: rest) [[]]

/-- Parse a nonempty all-digit character list. -/
def parseNatChars (l : List Char) : Option Nat :=
  if !l.isEmpty && l.all Char.isDigit then some (natOfDigits l) else none

/-- Day-first date parsing, modelling code line 63
(`pd.to_datetime(..., errors="coerce", dayfirst=True).dt.date`) restricted to
slash-separated numeric `d/m/y` text; any other shape coerces to `none`.
No claim depends on date values beyond this shape. -/
def parseDateDayFirst (s : String) : Option CalDate :=
  match splitOnCh '/' (trimChars s.data) with
  | [d, m, y] =>
    match parseNatChars d, parseNatChars m, parseNatChars y with
    | some dd, some mm, some yy =>
      if 1 ≤ dd && dd ≤ 31 && 1 ≤ mm && mm ≤ 12 then some ⟨dd, mm, yy⟩ else none
    | _, _, _ => none
  | _ => none

/-- A raw concatenated table: the column count of the underlying DataFrame
plus the rows, each a list of text cells.  Well-formed tables are
rectangular (`RawTable.WF`). -/
structure RawTable where
  ncols : Nat
  rows : List (List String)
  deriving DecidableEq

/-- Rectangularity: every row has exactly `ncols` cells. -/
def RawTable.WF (T : RawTable) : Prop :=
  ∀ r ∈ T.rows, r.length = T.ncols

/-- Raised when the concatenated table has too few columns for the fixed
10-name schema (the `df.columns = [...]` assignment of code lines 24-35). -/
structure SchemaError where
  ncols : Nat
  deriving DecidableEq

/-- Cell access with the empty string as the out-of-range default. -/
def cellAt (r : List String) (j : Nat) : String := r.getD j ""

/-- A cleaned ledger row: the fixed 10-field schema after type coercion. -/
structure LedgerRow where
  no : Option Rat
  valueDate : Option CalDate
  tranType : Option Rat
  tranRef : String
  participant : String
  addInfo : String
  dr : Option Rat
  amountDR : Option Rat
  cr : Option Rat
  amountCR : Option Rat
  deriving DecidableEq

/-- A DebitView row: a ledger row with the CR and Amount_CR columns dropped
(code line 75). -/
structure DebitRow where
  no : Option Rat
  valueDate : Option CalDate
  tranType : Option Rat
  tranRef : String
  participant : String
  addInfo : String
  dr : Option Rat
  amountDR : Option Rat
  deriving DecidableEq

/-- A CreditView row: a ledger row with the DR and Amount_DR columns dropped
(code line 87). -/
structure CreditRow where
  no : Option Rat
  valueDate : Option CalDate
  tranType : Option Rat
  tranRef : String
  participant : String
  addInfo : String
  cr : Option Rat
  amountCR : Option Rat
  deriving DecidableEq

/-- The synthetic trailer row of a view: the literal "TOTAL" in the No.
column, a count in the flag column and a sum in the amount column
(code lines 69-73 and 81-85). -/
structure ViewTrailer where
  no : String
  cnt : Nat
  total : Rat
  deriving DecidableEq

/-- The Debit sheet: data rows (post sort, CR columns dropped) plus trailer. -/
structure DebitView where
  rows : List DebitRow
  trailer : ViewTrailer
  deriving DecidableEq

/-- The Credit sheet: data rows (post sort, DR columns dropped) plus trailer. -/
structure CreditView where
  rows : List CreditRow
  trailer : ViewTrailer
  deriving DecidableEq

/-- The three outputs of the cleaner: Cleaned sheet, Debit sheet, Credit sheet. -/
structure CleanResult where
  ledger : List LedgerRow
  debit : DebitView
  credit : CreditView
  deriving DecidableEq

/-- Column truncation of code line 21: `df.iloc[:, :10]`. -/
def truncateCols (rows : List (List String)) : List (List String) :=
  rows.map (fun r => r.take 10)

/-- Code line 38: does any cell contain "table from page" (case-insensitive)? -/
def isArtifactRow (r : List String) : Bool :=
  r.any (fun c => containsCI c "table from page")

/-- Code line 42: is every cell empty after trimming?  (Line 41's
`dropna(how="all")` is a no-op on all-string cells and is subsumed.) -/
def isBlankRow (r : List String) : Bool :=
  r.all (fun c => (trimChars c.data).isEmpty)

/-- Code line 45: does the first column contain "Additional" (case-insensitive)? -/
def isHeaderRow (r : List String) : Bool :=
  containsCI (cellAt r 0) "Additional"

/-- Stage 3 of the spec: remove extraction-artifact rows. -/
def removeArtifactRows (rows : List (List String)) : List (List String) :=
  rows.filter (fun r => !(isArtifactRow r))

/-- Stage 4 of the spec: remove blank rows. -/
def removeBlankRows (rows : List (List String)) : List (List String) :=
  rows.filter (fun r => !(isBlankRow r))

/-- Stage 5 of the spec: remove mis-detected header rows. -/
def removeHeaderRows (rows : List (List String)) : List (List String) :=
  rows.filter (fun r => !(isHeaderRow r))

/-- Code line 52: exactly one of the row's cells is non-empty after
trimming, and that cell is column index 5 (Additional Information). -/
def isContinuationRow (r : List String) : Bool :=
  (r.countP (fun c => !(trimChars c.data).isEmpty) == 1) &&
    !(trimChars (cellAt r 5).data).isEmpty

/-- Code line 53: append the continuation row's Additional Information text,
space-separated, onto the previous row's Additional Information cell. -/
def appendInfo (prev row : List String) : List String :=
  prev.set 5 (cellAt prev 5 ++ " " ++ cellAt row 5)

/-- The continuation-merge loop of code lines 49-54, one call per value of
`i` in `range(1, len(df))`: read the current row `i`, and if it is a
continuation row, write the merged text into row `i-1` of the current table
state and record `i` for deletion.  `fuel` counts the remaining iterations. -/
def mergeLoop : Nat → Nat → List (List String) → List Nat →
    List (List String) × List Nat
  | 0, _, cur, drops => (cur, drops)
  | fuel + 1, i, cur, drops =>
    if isContinuationRow (cur.getD i []) then
      mergeLoop fuel (i + 1)
        (cur.set (i - 1) (appendInfo (cur.getD (i - 1) []) (cur.getD i [])))
        (drops ++ [i])
    else
      mergeLoop fuel (i + 1) cur drops

/-- Run the continuation-merge loop over a whole table, starting at row 1. -/
def mergeRun (rows : List (List String)) : List (List String) × List Nat :=
  mergeLoop (rows.length - 1) 1 rows []

/-- The `rows_to_drop` list accumulated by the loop. -/
def mergeDrops (rows : List (List String)) : List Nat :=
  (mergeRun rows).2

/-- Stage 6: the merged table with the recorded rows dropped
(code line 55: `df.drop(rows_to_drop)`). -/
def mergeContinuations (rows : List (List String)) : List (List String) :=
  ((List.range rows.length).filter (fun i => !(decide (i ∈ mergeDrops rows)))).map
    (fun i => (mergeRun rows).1.getD i [])

/-- Is row `i` of the original table a continuation row that the loop visits
(the loop starts at index 1 and never revisits a row, so the flags are
determined by the pre-merge table)? -/
def contFlag (rows : List (List String)) (i : Nat) : Bool :=
  decide (1 ≤ i) && decide (i < rows.length) && isContinuationRow (rows.getD i [])

/-- Row `i` as it stands when the loop finishes: it has received the
Additional Information text of row `i+1` exactly when row `i+1` is a
continuation row of the pre-merge table. -/
def mergedRow (rows : List (List String)) (i : Nat) : List String :=
  if contFlag rows (i + 1) then appendInfo (rows.getD i []) (rows.getD (i + 1) [])
  else rows.getD i []

/-- Declarative description of the continuation-merge stage as the code
actually behaves: every continuation row at index ≥ 1 is removed, and each
continuation row's text is appended to the row at the immediately preceding
original (pre-removal) position — even when that row is itself a
continuation row scheduled for removal, in which case the text is lost. -/
def mergeSpec (rows : List (List String)) : List (List String) :=
  (List.range rows.length).filterMap (fun i =>
    if contFlag rows i then none else some (mergedRow rows i))

/-- Type coercion and date parsing (code lines 57-63) applied to a merged
10-cell row, producing a ledger row of the fixed schema. -/
def toLedgerRow (r : List String) : LedgerRow :=
  { no := coerceNumeric (cellAt r 0)
    valueDate := parseDateDayFirst (cellAt r 1)
    tranType := coerceNumeric (cellAt r 2)
    tranRef := cellAt r 3
    participant := cellAt r 4
    addInfo := cellAt r 5
    dr := coerceNumeric (cellAt r 6)
    amountDR := coerceNumeric (cellAt r 7)
    cr := coerceNumeric (cellAt r 8)
    amountCR := coerceNumeric (cellAt r 9) }

/-- The table reaching the continuation-merge stage. -/
def preMergeRows (T : RawTable) : List (List String) :=
  removeHeaderRows (removeBlankRows (removeArtifactRows (truncateCols T.rows)))

/-- The final Cleaned sheet: stages 2-8 of the spec in code order. -/
def cleanLedger (T : RawTable) : List LedgerRow :=
  (mergeContinuations (preMergeRows T)).map toLedgerRow

/-- Comparison used by `sort_values(ascending=True)` on a nullable numeric
column: nulls (NaN) are placed last, mirroring pandas' default
`na_position="last"`. -/
def optLeB (a b : Option Rat) : Bool :=
  match a, b with
  | none, none => true
  | none, some _ => false
  | some _, none => true
  | some x, some y => decide (x ≤ y)

/-- Ordered insertion for the sort model. -/
def insertLe {α : Type} (le : α → α → Bool) (x : α) : List α → List α
  | [] => [x]
  | y :: ys => if le x y then x :: y :: ys else y :: insertLe le x ys

/-- `sort_values` modelled as a comparison sort (insertion sort).  The code
uses quicksort; both produce a permutation of the input that is sorted
under the comparison, which is all the claims depend on. -/
def sortLe {α : Type} (le : α → α → Bool) : List α → List α
  | [] => []
  | x :: xs => insertLe le x (sortLe le xs)

/-- Projection dropping the CR and Amount_CR columns (code line 75). -/
def toDebitRow (r : LedgerRow) : DebitRow :=
  { no := r.no, valueDate := r.valueDate, tranType := r.tranType
    tranRef := r.tranRef, participant := r.participant, addInfo := r.addInfo
    dr := r.dr, amountDR := r.amountDR }

/-- Projection dropping the DR and Amount_DR columns (code line 87). -/
def toCreditRow (r : LedgerRow) : CreditRow :=
  { no := r.no, valueDate := r.valueDate, tranType := r.tranType
    tranRef := r.tranRef, participant := r.participant, addInfo := r.addInfo
    cr := r.cr, amountCR := r.amountCR }

/-- The Debit sheet of code lines 66-75: select rows with non-null DR, sort
ascending by Amount_DR, compute the trailer from the sorted selection
(`count()` of non-null DR, NaN-skipping `sum()` of Amount_DR), append it,
drop the CR columns. -/
def deriveDebit (ledger : List LedgerRow) : DebitView :=
  let sel := ledger.filter (fun r => r.dr.isSome)
  let sorted := sortLe (fun a b => optLeB a.amountDR b.amountDR) sel
  { rows := sorted.map toDebitRow
    trailer :=
      { no := "TOTAL"
        cnt := (sorted.filter (fun r => r.dr.isSome)).length
        total := (sorted.filterMap (fun r => r.amountDR)).sum } }

/-- The Credit sheet of code lines 78-87, symmetric over CR/Amount_CR. -/
def deriveCredit (ledger : List LedgerRow) : CreditView :=
  let sel := ledger.filter (fun r => r.cr.isSome)
  let sorted := sortLe (fun a b => optLeB a.amountCR b.amountCR) sel
  { rows := sorted.map toCreditRow
    trailer :=
      { no := "TOTAL"
        cnt := (sorted.filter (fun r => r.cr.isSome)).length
        total := (sorted.filterMap (fun r => r.amountCR)).sum } }

/-- The successful branch of the cleaner: ledger first, then the two views
derived from it (the code derives both views from `df` with `.copy()` and
non-in-place operations, so each view is a pure function of the ledger). -/
def cleanOk (T : RawTable) : CleanResult :=
  let ledger := cleanLedger T
  { ledger := ledger
    debit := deriveDebit ledger
    credit := deriveCredit ledger }

/-- The whole cleaning call: the 10-name column assignment of code lines
24-35 fails on a table with fewer than 10 columns (the spec's
`SchemaError`); otherwise the pipeline runs to completion. -/
def clean (T : RawTable) : Except SchemaError CleanResult :=
  if T.ncols < 10 then Except.error ⟨T.ncols⟩ else Except.ok (cleanOk T)

/-- Per-stage removal counts for the row-conservation invariant. -/
def removedArtifact (T : RawTable) : Nat :=
  (truncateCols T.rows).countP isArtifactRow

/-- Rows removed by the blank-row stage. -/
def removedBlank (T : RawTable) : Nat :=
  (removeArtifactRows (truncateCols T.rows)).countP isBlankRow

/-- Rows removed by the header-row stage. -/
def removedHeader (T : RawTable) : Nat :=
  (removeBlankRows (removeArtifactRows (truncateCols T.rows))).countP isHeaderRow

/-- Rows removed by the continuation-merge stage: the length of the loop's
`rows_to_drop` list. -/
def removedContinuation (T : RawTable) : Nat :=
  (mergeDrops (preMergeRows T)).length

/-- Decimal digit characters of a natural number (fuel-indexed; `fuel = n + 1`
always suffices since `n / 10 < n` for `n ≥ 10`). -/
def natChars : Nat → Nat → List Char
  | 0, _ => []
  | fuel + 1, n =>
    if n < 10 then [Char.ofNat (48 + n)]
    else natChars fuel (n / 10) ++ [Char.ofNat (48 + n % 10)]

/-- Decimal digit string of a natural number. -/
def natDigitString (n : Nat) : String := ⟨natChars (n + 1) n⟩

/-- Character rendering of a rational: sign, numerator digits and, for
non-integers, a slash and the denominator digits. -/
def renderRatChars (q : Rat) : List Char :=
  (if q.num < 0 then ['-'] else []) ++ natChars (q.num.natAbs + 1) q.num.natAbs ++
    (if q.den == 1 then [] else '/' :: natChars (q.den + 1) q.den)

/-- String rendering of a rational. -/
def renderRat (q : Rat) : String := ⟨renderRatChars q⟩

/-- Render a nullable numeric field back to a raw cell; nulls become empty. -/
def renderOptRat : Option Rat → String
  | none => ""
  | some q => renderRat q

/-- Character rendering of a date as `d/m/y`. -/
def renderDateChars (d : CalDate) : List Char :=
  natChars (d.day + 1) d.day ++ '/' :: natChars (d.month + 1) d.month ++
    '/' :: natChars (d.year + 1) d.year

/-- Render a nullable date field back to a raw cell; nulls become empty. -/
def renderOptDate : Option CalDate → String
  | none => ""
  | some d => ⟨renderDateChars d⟩

/-- Modelled from the spec: the round-trip of a cleaned ledger row back to
RawTable form ("the already-cleaned Ledger's raw-cell equivalent
(round-tripped back to RawTable form)").  The source contains no such
conversion; following the spec's words, each field is rendered back to its
text cell, with null numeric and date fields becoming empty cells. -/
def ledgerRowToRaw (r : LedgerRow) : List String :=
  [renderOptRat r.no, renderOptDate r.valueDate, renderOptRat r.tranType,
   r.tranRef, r.participant, r.addInfo, renderOptRat r.dr,
   renderOptRat r.amountDR, renderOptRat r.cr, renderOptRat r.amountCR]

/-- The spec's concrete 3-row scenario table (spec section 8). -/
def scenarioTable : RawTable :=
  ⟨10, [["1", "01/02/2024", "100", "REF1", "Acme", "Payment", "1", "50.00", "", ""],
        ["", "", "", "", "", "note continued", "", "", "", ""],
        ["table from page 2 of 5", "", "", "", "", "", "", "", "", ""]]⟩

/-- A 9-column table for the schema-error witness. -/
def narrowTable : RawTable :=
  ⟨9, [["a", "b", "c", "d", "e", "f", "g", "h", "i"]]⟩

/-- A 10-column table for the schema-ok witness. -/
def wideTable : RawTable :=
  ⟨10, [["1", "", "", "", "", "x", "", "", "", ""]]⟩

/-- A table whose single surviving row has null DR and null CR, for the
empty-view witness. -/
def noDrCrTable : RawTable :=
  ⟨10, [["", "", "", "REFX", "Acme", "hello", "", "", "", ""]]⟩

/-- Two consecutive continuation rows after a data row: the input on which
the retained-row reading of the continuation merge diverges from the code. -/
def doubleContRows : List (List String) :=
  [["1", "", "", "", "", "note", "1", "2", "", ""],
   ["", "", "", "", "", "b", "", "", "", ""],
   ["", "", "", "", "", "c", "", "", "", ""]]

/-- A table whose continuation merge glues "table from" and "page" into the
artifact marker, breaking the idempotence of re-cleaning. -/
def gluedMarkerTable : RawTable :=
  ⟨10, [["1", "", "", "", "", "table from", "1", "2", "", ""],
        ["", "", "", "", "", "page", "", "", "", ""]]⟩

theorem length_filter_not_add_countP {α : Type} (p : α → Bool) (l : List α) :
    (l.filter (fun a => !(p a))).length + l.countP p = l.length := by
  induction l with
  | nil => rfl
  | cons a l ih =>
    by_cases h : p a
    · simp only [List.filter_cons, List.countP_cons, h]
      simp only [Bool.not_true, if_neg]
      simp
      omega
    · simp only [List.filter_cons, List.countP_cons]
      simp [h]
      omega

theorem filter_not_map_eq {α β : Type} (q : α → Bool) (f : α → β) (l : List α) :
    (l.filter (fun a => !(q a))).map f
      = l.filterMap (fun a => if q a then none else some (f a)) := by
  induction l with
  | nil => rfl
  | cons a l ih =>
    by_cases h : q a <;> simp [List.filter_cons, List.filterMap_cons, h, ih]

theorem perm_insertLe {α : Type} (le : α → α → Bool) (x : α) (l : List α) :
    List.Perm (insertLe le x l) (x :: l) := by
  induction l with
  | nil => exact List.Perm.refl _
  | cons y ys ih =>
    by_cases h : le x y
    · simp [insertLe, h]
    · simp only [insertLe, if_neg h]
      exact (ih.cons y).trans (List.Perm.swap x y ys)

theorem perm_sortLe {α : Type} (le : α → α → Bool) (l : List α) :
    List.Perm (sortLe le l) l := by
  induction l with
  | nil => exact List.Perm.refl _
  | cons x xs ih => exact (perm_insertLe le x (sortLe le xs)).trans (ih.cons x)

theorem pairwise_insertLe {α : Type} (le : α → α → Bool)
    (htot : ∀ a b, le a b = true ∨ le b a = true)
    (htrans : ∀ a b c, le a b = true → le b c = true → le a c = true)
    (x : α) : ∀ l : List α, l.Pairwise (fun a b => le a b = true) →
      (insertLe le x l).Pairwise (fun a b => le a b = true)
  | [], _ => by simp [insertLe]
  | y :: ys, h => by
    rcases List.pairwise_cons.mp h with ⟨hy, hys⟩
    by_cases hxy : le x y = true
    · simp only [insertLe, if_pos hxy]
      refine List.pairwise_cons.mpr ⟨?_, h⟩
      intro z hz
      rcases List.mem_cons.mp hz with rfl | hz
      · exact hxy
      · exact htrans x y z hxy (hy z hz)
    · simp only [insertLe, if_neg hxy]
      refine List.pairwise_cons.mpr ⟨?_, pairwise_insertLe le htot htrans x ys hys⟩
      intro z hz
      rcases List.mem_cons.mp ((perm_insertLe le x ys).mem_iff.mp hz) with rfl | hz'
      · rcases htot z y with h1 | h1
        · exact absurd h1 hxy
        · exact h1
      · exact hy z hz'

theorem pairwise_sortLe {α : Type} (le : α → α → Bool)
    (htot : ∀ a b, le a b = true ∨ le b a = true)
    (htrans : ∀ a b c, le a b = true → le b c = true → le a c = true)
    (l : List α) : (sortLe le l).Pairwise (fun a b => le a b = true) := by
  induction l with
  | nil => exact List.Pairwise.nil
  | cons x xs ih => exact pairwise_insertLe le htot htrans x _ ih

theorem optLeB_total (a b : Option Rat) : optLeB a b = true ∨ optLeB b a = true := by
  cases a <;> cases b <;> simp [optLeB]
  exact le_total _ _

theorem optLeB_trans (a b c : Option Rat) :
    optLeB a b = true → optLeB b c = true → optLeB a c = true := by
  cases a <;> cases b <;> cases c <;> simp [optLeB]
  exact fun h1 h2 => le_trans h1 h2

theorem deriveDebit_trailer_cnt (L : List LedgerRow) :
    (deriveDebit L).trailer.cnt = (L.filter (fun r => r.dr.isSome)).length := by
  simp only [deriveDebit]
  have hperm := perm_sortLe (fun a b : LedgerRow => optLeB a.amountDR b.amountDR)
    (L.filter (fun r => r.dr.isSome))
  rw [← List.countP_eq_length_filter, hperm.countP_eq, List.countP_eq_length_filter,
    List.filter_eq_self.mpr (fun a ha => (List.mem_filter.mp ha).2)]

theorem deriveDebit_trailer_total (L : List LedgerRow) :
    (deriveDebit L).trailer.total
      = ((L.filter (fun r => r.dr.isSome)).filterMap (fun r => r.amountDR)).sum := by
  simp only [deriveDebit]
  exact ((perm_sortLe _ _).filterMap _).sum_eq

theorem deriveCredit_trailer_cnt (L : List LedgerRow) :
    (deriveCredit L).trailer.cnt = (L.filter (fun r => r.cr.isSome)).length := by
  simp only [deriveCredit]
  have hperm := perm_sortLe (fun a b : LedgerRow => optLeB a.amountCR b.amountCR)
    (L.filter (fun r => r.cr.isSome))
  rw [← List.countP_eq_length_filter, hperm.countP_eq, List.countP_eq_length_filter,
    List.filter_eq_self.mpr (fun a ha => (List.mem_filter.mp ha).2)]

theorem deriveCredit_trailer_total (L : List LedgerRow) :
    (deriveCredit L).trailer.total
      = ((L.filter (fun r => r.cr.isSome)).filterMap (fun r => r.amountCR)).sum := by
  simp only [deriveCredit]
  exact ((perm_sortLe _ _).filterMap _).sum_eq

/-- Claim C4. -/
theorem C4_trailer_count_and_sum (T : RawTable) :
    (cleanOk T).debit.trailer.no = "TOTAL" ∧
    (cleanOk T).debit.trailer.cnt
      = ((cleanOk T).ledger.filter (fun r => r.dr.isSome)).length ∧
    (cleanOk T).debit.trailer.total
      = (((cleanOk T).ledger.filter (fun r => r.dr.isSome)).filterMap
          (fun r => r.amountDR)).sum ∧
    (cleanOk T).credit.trailer.no = "TOTAL" ∧
    (cleanOk T).credit.trailer.cnt
      = ((cleanOk T).ledger.filter (fun r => r.cr.isSome)).length ∧
    (cleanOk T).credit.trailer.total
      = (((cleanOk T).ledger.filter (fun r => r.cr.isSome)).filterMap
          (fun r => r.amountCR)).sum := by
  refine ⟨rfl, ?_, ?_, rfl, ?_, ?_⟩
  · exact deriveDebit_trailer_cnt (cleanLedger T)
  · exact deriveDebit_trailer_total (cleanLedger T)
  · exact deriveCredit_trailer_cnt (cleanLedger T)
  · exact deriveCredit_trailer_total (cleanLedger T)

/-- Claim C7. -/
theorem C7_views_sorted (T : RawTable) :
    List.Pairwise (fun a b : DebitRow => optLeB a.amountDR b.amountDR = true)
      (cleanOk T).debit.rows ∧
    List.Pairwise (fun a b : CreditRow => optLeB a.amountCR b.amountCR = true)
      (cleanOk T).credit.rows := by
  constructor
  · have hp := pairwise_sortLe (fun a b : LedgerRow => optLeB a.amountDR b.amountDR)
      (fun a b => optLeB_total _ _) (fun a b c => optLeB_trans _ _ _)
      ((cleanLedger T).filter (fun r => r.dr.isSome))
    exact hp.map toDebitRow (fun a b h => by simpa [toDebitRow] using h)
  · have hp := pairwise_sortLe (fun a b : LedgerRow => optLeB a.amountCR b.amountCR)
      (fun a b => optLeB_total _ _) (fun a b c => optLeB_trans _ _ _)
      ((cleanLedger T).filter (fun r => r.cr.isSome))
    exact hp.map toCreditRow (fun a b h => by simpa [toCreditRow] using h)

/-- Claim C9. -/
theorem C9_views_leave_ledger_unchanged (T : RawTable) :
    (cleanOk T).ledger = cleanLedger T ∧
    (cleanOk T).debit = deriveDebit (cleanLedger T) ∧
    (cleanOk T).credit = deriveCredit (cleanLedger T) :=
  ⟨rfl, rfl, rfl⟩

/-- Claim C10. -/
theorem C10_empty_views (T : RawTable) :
    ((∀ row ∈ (cleanOk T).ledger, row.dr = none) →
      (cleanOk T).debit.rows = [] ∧
        (cleanOk T).debit.trailer = ⟨"TOTAL", 0, 0⟩) ∧
    ((∀ row ∈ (cleanOk T).ledger, row.cr = none) →
      (cleanOk T).credit.rows = [] ∧
        (cleanOk T).credit.trailer = ⟨"TOTAL", 0, 0⟩) := by
  constructor
  · intro h
    have hsel : (cleanLedger T).filter (fun r => r.dr.isSome) = [] := by
      rw [List.filter_eq_nil_iff]
      intro a ha
      simp [h a ha]
    constructor
    · show (sortLe _ ((cleanLedger T).filter (fun r => r.dr.isSome))).map toDebitRow = []
      rw [hsel]; rfl
    · show ViewTrailer.mk "TOTAL" _ _ = _
      rw [ViewTrailer.mk.injEq]
      refine ⟨rfl, ?_, ?_⟩
      · show ((sortLe _ ((cleanLedger T).filter (fun r => r.dr.isSome))).filter _).length = 0
        rw [hsel]; rfl
      · show ((sortLe _ ((cleanLedger T).filter (fun r => r.dr.isSome))).filterMap _).sum = 0
        rw [hsel]; rfl
  · intro h
    have hsel : (cleanLedger T).filter (fun r => r.cr.isSome) = [] := by
      rw [List.filter_eq_nil_iff]
      intro a ha
      simp [h a ha]
    constructor
    · show (sortLe _ ((cleanLedger T).filter (fun r => r.cr.isSome))).map toCreditRow = []
      rw [hsel]; rfl
    · show ViewTrailer.mk "TOTAL" _ _ = _
      rw [ViewTrailer.mk.injEq]
      refine ⟨rfl, ?_, ?_⟩
      · show ((sortLe _ ((cleanLedger T).filter (fun r => r.cr.isSome))).filter _).length = 0
        rw [hsel]; rfl
      · show ((sortLe _ ((cleanLedger T).filter (fun r => r.cr.isSome))).filterMap _).sum = 0
        rw [hsel]; rfl

/-- Claim C2. -/
theorem C2_schema_check (T : RawTable) :
    (T.ncols < 10 → clean T = Except.error ⟨T.ncols⟩) ∧
    (10 ≤ T.ncols → clean T = Except.ok (cleanOk T)) := by
  constructor
  · intro h
    unfold clean
    rw [if_pos h]
  · intro h
    unfold clean
    rw [if_neg (Nat.not_lt.mpr h)]

theorem C2_schema_check_witness :
    clean narrowTable = Except.error ⟨9⟩ ∧
    clean wideTable = Except.ok (cleanOk wideTable) :=
  ⟨(C2_schema_check narrowTable).1 (by decide),
   (C2_schema_check wideTable).2 (by decide)⟩

theorem C10_empty_views_witness :
    (cleanOk noDrCrTable).debit.rows = [] ∧
    (cleanOk noDrCrTable).debit.trailer = ⟨"TOTAL", 0, 0⟩ ∧
    (cleanOk noDrCrTable).credit.rows = [] ∧
    (cleanOk noDrCrTable).credit.trailer = ⟨"TOTAL", 0, 0⟩ :=
  ⟨((C10_empty_views noDrCrTable).1 (by decide)).1,
   ((C10_empty_views noDrCrTable).1 (by decide)).2,
   ((C10_empty_views noDrCrTable).2 (by decide)).1,
   ((C10_empty_views noDrCrTable).2 (by decide)).2⟩

/-- Claim C5. -/
theorem C5_numeric_coercion :
    coerceNumeric "1,250.50" = some ((2501 : Rat) / 2) ∧
    coerceNumeric "abc" = none ∧
    ∀ s : String, coerceNumeric s = none ∨ ∃ q, coerceNumeric s = some q := by
  refine ⟨?_, by decide, fun s => ?_⟩
  · have h : coerceNumeric "1,250.50"
        = some (((1250 : Nat) : Rat) + ((50 : Nat) : Rat) / (10 : Rat) ^ (2 : Nat)) := rfl
    rw [h]
    norm_num
  · cases h : coerceNumeric s with
    | none => exact Or.inl rfl
    | some q => exact Or.inr ⟨q, rfl⟩

/-- Claim C3. -/
theorem C3_concrete_scenario :
    clean scenarioTable = Except.ok (cleanOk scenarioTable) ∧
    (cleanOk scenarioTable).ledger
      = [⟨some 1, some ⟨1, 2, 2024⟩, some 100, "REF1", "Acme",
          "Payment note continued", some 1, some 50, none, none⟩] := by
  constructor
  · rfl
  · have hm : mergeContinuations (preMergeRows scenarioTable)
        = [["1", "01/02/2024", "100", "REF1", "Acme", "Payment note continued",
            "1", "50.00", "", ""]] := by decide
    show cleanLedger scenarioTable = _
    rw [cleanLedger, hm]
    have h50 : coerceNumeric "50.00" = some 50 := by
      have h : coerceNumeric "50.00"
          = some (((50 : Nat) : Rat) + ((0 : Nat) : Rat) / (10 : Rat) ^ (2 : Nat)) := rfl
      rw [h]
      norm_num
    have h1c : coerceNumeric "1" = some 1 := by
      have h : coerceNumeric "1" = some ((1 : Nat) : Rat) := rfl
      rw [h]
      norm_num
    have h100 : coerceNumeric "100" = some 100 := by
      have h : coerceNumeric "100" = some ((100 : Nat) : Rat) := rfl
      rw [h]
      norm_num
    have hdate : parseDateDayFirst "01/02/2024" = some ⟨1, 2, 2024⟩ := by decide
    have hnone : coerceNumeric "" = none := by decide
    simp only [List.map_cons, List.map_nil, toLedgerRow, cellAt]
    simp [h50, h1c, h100, hdate, hnone]

theorem mergeLoop_spec (rows : List (List String)) (fuel : Nat) :
    ∀ (i : Nat) (cur : List (List String)) (drops : List Nat),
      1 ≤ i → i + fuel = rows.length → cur.length = rows.length →
      (∀ j, cur.getD j [] = if j + 1 < i then mergedRow rows j else rows.getD j []) →
      drops = (List.range' 1 (i - 1)).filter (contFlag rows) →
      (∀ j, (mergeLoop fuel i cur drops).1.getD j [] =
          if j + 1 < i + fuel then mergedRow rows j else rows.getD j []) ∧
      (mergeLoop fuel i cur drops).2
        = (List.range' 1 (i - 1 + fuel)).filter (contFlag rows) := by
  induction fuel with
  | zero =>
    intro i cur drops h1 h2 hlen hcur hdrops
    simp only [mergeLoop, Nat.add_zero]
    exact ⟨hcur, hdrops⟩
  | succ fuel ih =>
    intro i cur drops h1 h2 hlen hcur hdrops
    have hi_lt : i < rows.length := by omega
    have hrow : cur.getD i [] = rows.getD i [] := by
      have h := hcur i
      rwa [if_neg (by omega)] at h
    have hprev : cur.getD (i - 1) [] = rows.getD (i - 1) [] := by
      have h := hcur (i - 1)
      rwa [if_neg (by omega)] at h
    have e1 : i + (fuel + 1) = (i + 1) + fuel := by omega
    have e2 : i - 1 + (fuel + 1) = (i + 1) - 1 + fuel := by omega
    by_cases hc : isContinuationRow (rows.getD i []) = true
    · have hflag : contFlag rows i = true := by
        unfold contFlag
        rw [decide_eq_true h1, decide_eq_true hi_lt, hc]
        rfl
      have heq : mergeLoop (fuel + 1) i cur drops
          = mergeLoop fuel (i + 1)
              (cur.set (i - 1) (appendInfo (rows.getD (i - 1) []) (rows.getD i [])))
              (drops ++ [i]) := by
        simp only [mergeLoop, hrow, hprev, hc, if_true]
      rw [heq, e1, e2]
      have hcur' : ∀ j,
          (cur.set (i - 1) (appendInfo (rows.getD (i - 1) []) (rows.getD i []))).getD j []
            = if j + 1 < i + 1 then mergedRow rows j else rows.getD j [] := by
        intro j
        rw [List.getD_eq_getElem?_getD, List.getElem?_set]
        by_cases hj : i - 1 = j
        · subst hj
          rw [if_pos rfl, if_pos (show i - 1 < cur.length by omega),
            if_pos (show i - 1 + 1 < i + 1 by omega)]
          rw [mergedRow, show i - 1 + 1 = i from by omega, hflag, if_pos rfl]
          rfl
        · rw [if_neg hj, ← List.getD_eq_getElem?_getD, hcur j]
          by_cases hj2 : j + 1 < i
          · rw [if_pos hj2, if_pos (by omega)]
          · rw [if_neg hj2, if_neg (by omega)]
      have hdrops' : drops ++ [i]
          = (List.range' 1 ((i + 1) - 1)).filter (contFlag rows) := by
        rw [show (i + 1) - 1 = (i - 1) + 1 from by omega, List.range'_1_concat,
          List.filter_append, hdrops, show 1 + (i - 1) = i from by omega]
        simp [hflag]
      exact ih (i + 1) _ _ (by omega) (by omega)
        (by rw [List.length_set]; exact hlen) hcur' hdrops'
    · have hc' : isContinuationRow (rows.getD i []) = false := by
        cases h : isContinuationRow (rows.getD i [])
        · rfl
        · exact absurd h hc
      have hflag : contFlag rows i = false := by
        unfold contFlag
        rw [hc']
        simp
      have heq : mergeLoop (fuel + 1) i cur drops = mergeLoop fuel (i + 1) cur drops := by
        simp only [mergeLoop, hrow]
        rw [if_neg hc]
      rw [heq, e1, e2]
      have hcur' : ∀ j, cur.getD j []
          = if j + 1 < i + 1 then mergedRow rows j else rows.getD j [] := by
        intro j
        rw [hcur j]
        by_cases hj2 : j + 1 < i
        · rw [if_pos hj2, if_pos (by omega)]
        · by_cases hj3 : j + 1 < i + 1
          · rw [if_neg hj2, if_pos hj3, show j = i - 1 from by omega]
            rw [mergedRow, show i - 1 + 1 = i from by omega, hflag]
            simp
          · rw [if_neg hj2, if_neg hj3]
      have hdrops' : drops = (List.range' 1 ((i + 1) - 1)).filter (contFlag rows) := by
        rw [show (i + 1) - 1 = (i - 1) + 1 from by omega, List.range'_1_concat,
          List.filter_append, hdrops, show 1 + (i - 1) = i from by omega]
        simp [hflag]
      exact ih (i + 1) _ _ (by omega) (by omega) hlen hcur' hdrops'

theorem mergeRun_spec (rows : List (List String)) :
    (∀ j, (mergeRun rows).1.getD j [] =
        if j + 1 < rows.length then mergedRow rows j else rows.getD j []) ∧
    (mergeRun rows).2 = (List.range' 1 (rows.length - 1)).filter (contFlag rows) := by
  rcases Nat.eq_zero_or_pos rows.length with h0 | hpos
  · have hnil : rows = [] := List.length_eq_zero.mp h0
    subst hnil
    exact ⟨fun j => by simp [mergeRun, mergeLoop], rfl⟩
  · have h := mergeLoop_spec rows (rows.length - 1) 1 rows []
      (le_refl 1) (by omega) rfl
      (fun j => by rw [if_neg (by omega)])
      (by simp)
    rcases h with ⟨hfst, hsnd⟩
    constructor
    · intro j
      have := hfst j
      rwa [show 1 + (rows.length - 1) = rows.length from by omega] at this
    · rw [mergeRun]
      simpa using hsnd

theorem mergeRun_fst (rows : List (List String)) (j : Nat) :
    (mergeRun rows).1.getD j [] = if j < rows.length then mergedRow rows j else [] := by
  rw [(mergeRun_spec rows).1 j]
  by_cases hj : j + 1 < rows.length
  · rw [if_pos hj, if_pos (by omega)]
  · by_cases hj2 : j < rows.length
    · rw [if_neg hj, if_pos hj2]
      rw [mergedRow]
      have : contFlag rows (j + 1) = false := by
        unfold contFlag
        rw [decide_eq_false (show ¬ (j + 1 < rows.length) from hj)]
        simp
      rw [this]
      simp
    · rw [if_neg hj, if_neg hj2]
      rw [List.getD_eq_getElem?_getD, List.getElem?_eq_none (by omega)]
      rfl

theorem mem_mergeDrops (rows : List (List String)) (i : Nat) :
    i ∈ mergeDrops rows ↔ contFlag rows i = true := by
  show i ∈ (mergeRun rows).2 ↔ _
  rw [(mergeRun_spec rows).2, List.mem_filter]
  constructor
  · exact fun h => h.2
  · intro h
    refine ⟨?_, h⟩
    have h1 : 1 ≤ i ∧ i < rows.length := by
      by_contra hcon
      have : contFlag rows i = false := by
        unfold contFlag
        rcases Decidable.not_and_iff_or_not.mp hcon with h2 | h2
        · rw [decide_eq_false h2]
          simp
        · rw [decide_eq_false h2]
          simp
      rw [h] at this
      exact Bool.noConfusion this
    rw [List.mem_range'_1]
    omega

theorem mergeContinuations_eq_mergeSpec (rows : List (List String)) :
    mergeContinuations rows = mergeSpec rows := by
  unfold mergeContinuations mergeSpec
  have hfc : ∀ i ∈ List.range rows.length,
      (!(decide (i ∈ mergeDrops rows))) = !(contFlag rows i) := by
    intro i _
    by_cases h : i ∈ mergeDrops rows
    · rw [decide_eq_true h, (mem_mergeDrops rows i).mp h]
    · rw [decide_eq_false h]
      have hne : contFlag rows i = false :=
        Bool.eq_false_iff.mpr (fun hc => h ((mem_mergeDrops rows i).mpr hc))
      rw [hne]
  rw [List.filter_congr hfc]
  have hmap : ∀ i ∈ (List.range rows.length).filter (fun i => !(contFlag rows i)),
      (mergeRun rows).1.getD i [] = mergedRow rows i := by
    intro i hi
    have hin : i < rows.length := List.mem_range.mp (List.mem_filter.mp hi).1
    rw [mergeRun_fst, if_pos hin]
  rw [List.map_congr_left hmap]
  exact filter_not_map_eq _ _ _

theorem filter_contFlag_range (rows : List (List String)) :
    (List.range rows.length).filter (contFlag rows) = mergeDrops rows := by
  rcases Nat.eq_zero_or_pos rows.length with h0 | hpos
  · have hnil : rows = [] := List.length_eq_zero.mp h0
    subst hnil
    rfl
  · rw [show mergeDrops rows = (mergeRun rows).2 from rfl, (mergeRun_spec rows).2]
    obtain ⟨m, hm⟩ : ∃ m, rows.length = m + 1 := ⟨rows.length - 1, by omega⟩
    rw [hm, List.range_eq_range', List.range'_succ, Nat.add_sub_cancel]
    rw [List.filter_cons]
    have h0flag : contFlag rows 0 = false := by
      unfold contFlag
      simp
    rw [h0flag]
    simp

theorem mergeContinuations_length (rows : List (List String)) :
    (mergeContinuations rows).length + (mergeDrops rows).length = rows.length := by
  have hpart := length_filter_not_add_countP (fun i => decide (i ∈ mergeDrops rows))
    (List.range rows.length)
  rw [List.length_range] at hpart
  have hlen1 : (mergeContinuations rows).length
      = ((List.range rows.length).filter
          (fun i => !(decide (i ∈ mergeDrops rows)))).length := by
    rw [mergeContinuations, List.length_map]
  have hcnt : (List.range rows.length).countP (fun i => decide (i ∈ mergeDrops rows))
      = (mergeDrops rows).length := by
    rw [List.countP_eq_length_filter]
    have hfc : ∀ i ∈ List.range rows.length,
        (decide (i ∈ mergeDrops rows)) = contFlag rows i := by
      intro i _
      by_cases h : i ∈ mergeDrops rows
      · rw [decide_eq_true h, (mem_mergeDrops rows i).mp h]
      · rw [decide_eq_false h]
        exact (Bool.eq_false_iff.mpr
          (fun hc => h ((mem_mergeDrops rows i).mpr hc))).symm
    rw [List.filter_congr hfc, filter_contFlag_range]
  omega

/-- Claim C1 (amended): the continuation-merge stage of the code removes
every continuation row at index ≥ 1 and appends each continuation row's
Additional Information text, space-separated, to the row at the immediately
preceding original (pre-removal) position — even when that row is itself a
continuation row scheduled for removal, in which case the appended text is
lost rather than cascaded onto the nearest retained row. -/
theorem C1_continuation_merge (rows : List (List String)) :
    mergeContinuations rows = mergeSpec rows :=
  mergeContinuations_eq_mergeSpec rows

/-- Claim C1, counterexample: on a data row followed by two consecutive
continuation rows ("b" then "c"), the retained row ends with Additional
Information "note b" — "c" was appended to the dropped middle row and lost —
whereas the claim requires "note b c". -/
theorem C1_counterexample :
    (mergeContinuations doubleContRows).map (fun r => r.getD 5 "") = ["note b"] ∧
    ¬ ((mergeContinuations doubleContRows).map (fun r => r.getD 5 "")
        = ["note b c"]) := by
  constructor
  · decide
  · decide

/-- Claim C6: rows of the truncated concatenated table are conserved: the
output Ledger length plus the rows removed by the artifact, blank, header
and continuation stages equals the truncated table's length. -/
theorem C6_row_conservation (T : RawTable) :
    (cleanOk T).ledger.length + removedArtifact T + removedBlank T
      + removedHeader T + removedContinuation T = (truncateCols T.rows).length := by
  show (cleanLedger T).length + _ + _ + _ + _ = _
  rw [cleanLedger, List.length_map]
  have h6 := mergeContinuations_length (preMergeRows T)
  have h5 := length_filter_not_add_countP isHeaderRow
    (removeBlankRows (removeArtifactRows (truncateCols T.rows)))
  have h4 := length_filter_not_add_countP isBlankRow
    (removeArtifactRows (truncateCols T.rows))
  have h3 := length_filter_not_add_countP isArtifactRow (truncateCols T.rows)
  unfold removedArtifact removedBlank removedHeader removedContinuation at *
  unfold preMergeRows removeHeaderRows removeBlankRows removeArtifactRows at *
  omega

theorem startsWithChars_subset : ∀ pat l : List Char,
    startsWithChars pat l = true → ∀ c ∈ pat, c ∈ l
  | [], _, _ => by
    intro c hc
    simp at hc
  | a :: as, [], h => by
    simp [startsWithChars] at h
  | a :: as, b :: bs, h => by
    intro c hc
    simp only [startsWithChars, Bool.and_eq_true, beq_iff_eq] at h
    rcases List.mem_cons.mp hc with rfl | hc
    · exact List.mem_cons.mpr (Or.inl h.1)
    · exact List.mem_cons.mpr (Or.inr (startsWithChars_subset as bs h.2 c hc))

theorem hasSubChars_subset {pat : List Char} : ∀ {l : List Char},
    hasSubChars pat l = true → ∀ c ∈ pat, c ∈ l
  | [], h => startsWithChars_subset pat [] h
  | b :: bs, h => by
    simp only [hasSubChars, Bool.or_eq_true] at h
    rcases h with h | h
    · exact startsWithChars_subset pat (b :: bs) h
    · intro c hc
      exact List.mem_cons.mpr (Or.inr (hasSubChars_subset h c hc))

theorem natChars_mem (fuel : Nat) : ∀ (n : Nat), ∀ c ∈ natChars fuel n,
    ∃ d, d < 10 ∧ c = Char.ofNat (48 + d) := by
  induction fuel with
  | zero =>
    intro n c hc
    simp [natChars] at hc
  | succ fuel ih =>
    intro n c hc
    rw [natChars] at hc
    by_cases hn : n < 10
    · rw [if_pos hn] at hc
      simp at hc
      exact ⟨n, hn, hc⟩
    · rw [if_neg hn] at hc
      rcases List.mem_append.mp hc with h | h
      · exact ih _ c h
      · simp at h
        exact ⟨n % 10, Nat.mod_lt _ (by norm_num), h⟩

theorem lowerChar_digit_ne (d : Nat) (hd : d < 10) :
    lowerChar (Char.ofNat (48 + d)) ≠ 'a' := by
  interval_cases d <;> decide

theorem renderRatChars_lower_ne (q : Rat) :
    ∀ c ∈ renderRatChars q, lowerChar c ≠ 'a' := by
  intro c hc
  unfold renderRatChars at hc
  rcases List.mem_append.mp hc with h | h
  · rcases List.mem_append.mp h with h1 | h1
    · by_cases hq : q.num < 0
      · rw [if_pos hq] at h1
        simp at h1
        subst h1
        decide
      · rw [if_neg hq] at h1
        simp at h1
    · rcases natChars_mem _ _ c h1 with ⟨d, hd, rfl⟩
      exact lowerChar_digit_ne d hd
  · by_cases hq : (q.den == 1) = true
    · rw [if_pos hq] at h
      simp at h
    · rw [if_neg hq] at h
      rcases List.mem_cons.mp h with rfl | h1
      · decide
      · rcases natChars_mem _ _ c h1 with ⟨d, hd, rfl⟩
        exact lowerChar_digit_ne d hd

theorem renderOptRat_no_additional (o : Option Rat) :
    containsCI (renderOptRat o) "Additional" = false := by
  cases o with
  | none => decide
  | some q =>
    by_contra hcon
    rw [Bool.not_eq_false] at hcon
    have hsub := hasSubChars_subset hcon
    have ha : 'a' ∈ "Additional".data.map lowerChar := by decide
    have hmem : 'a' ∈ (renderOptRat (some q)).data.map lowerChar := hsub 'a' ha
    have hdata : (renderOptRat (some q)).data = renderRatChars q := rfl
    rw [hdata] at hmem
    rcases List.mem_map.mp hmem with ⟨c, hc, hl⟩
    exact renderRatChars_lower_ne q c hc hl

/-- Claim C8 (amended): re-running the cleaner on the round-tripped Ledger
removes no rows in the header-row stage (the No. column of a cleaned row is
a rendered nullable numeric and can never contain "Additional"); the
artifact-row and blank-row stages, however, can remove rows on a re-run. -/
theorem C8_rerun_header_stage (T : RawTable) :
    removeHeaderRows (removeBlankRows (removeArtifactRows
        (truncateCols ((cleanLedger T).map ledgerRowToRaw))))
      = removeBlankRows (removeArtifactRows
          (truncateCols ((cleanLedger T).map ledgerRowToRaw))) := by
  unfold removeHeaderRows
  rw [List.filter_eq_self]
  intro row hrow
  have h1 : row ∈ truncateCols ((cleanLedger T).map ledgerRowToRaw) :=
    (List.mem_filter.mp (List.mem_filter.mp hrow).1).1
  rcases List.mem_map.mp h1 with ⟨r1, hr1, hrow_eq⟩
  rcases List.mem_map.mp hr1 with ⟨r, _, hr_eq⟩
  subst hr_eq
  subst hrow_eq
  have htake : (ledgerRowToRaw r).take 10 = ledgerRowToRaw r := rfl
  rw [htake]
  have hhdr : isHeaderRow (ledgerRowToRaw r) = false := by
    show containsCI (cellAt (ledgerRowToRaw r) 0) "Additional" = false
    have hcell : cellAt (ledgerRowToRaw r) 0 = renderOptRat r.no := rfl
    rw [hcell]
    exact renderOptRat_no_additional r.no
  rw [hhdr]
  rfl

/-- Claim C8, counterexample: on `gluedMarkerTable` the continuation merge
produces the Additional Information text "table from page"; round-tripping
the one-row cleaned Ledger and re-running the cleaner removes that row in
the artifact-row stage, so re-cleaning is not removal-free. -/
theorem C8_counterexample :
    (cleanLedger gluedMarkerTable).length = 1 ∧
    ((cleanLedger gluedMarkerTable).map ledgerRowToRaw).countP isArtifactRow = 1 ∧
    (removeArtifactRows (truncateCols
        ((cleanLedger gluedMarkerTable).map ledgerRowToRaw))).length = 0 := by
  refine ⟨by decide, by decide, by decide⟩
